import Mathlib

set_option maxRecDepth 10000

/-!
Verification of the fastKoF image-transform orchestration subsystem.

This file gives a shallow embedding, in Lean 4, of the core of the
repository: the `APIService` class (`src/services/APIService.ts`) and the
`ImageTransformManager` class (`src/core/ImageTransformManager.ts`), and
proves or refutes the behavioural claims of the specification against it.

Modelling conventions:
- JavaScript strings are Lean `String`s; `charCodeAt` is `Char.toNat`
  (the strings occurring in the claims are ASCII, where a UTF-16 code
  unit coincides with the code point).
- 32-bit signed integer coercion (the `| 0` / `&` / `<<` behaviour of
  JavaScript bitwise operators) is `toInt32` on `Int`.
- A JavaScript `Map` is an insertion-ordered association list
  (`List (String × _)`); `Map.set` on an existing key updates in place
  without moving the key, matching the JS semantics.
- Time (`Date.now()`) is an explicit `Nat` parameter.
- Thrown values are made explicit: the service throws plain object
  literals built by `createAPIError` (which are *not* `instanceof Error`)
  and the runtime may throw genuine `Error` instances; the distinction
  matters because both catch blocks test `error instanceof Error`.
-/

namespace FastKoF

/-- Coerce an integer to JavaScript's 32-bit signed range, the effect of
JS bitwise operators (`x & x`, `x << k`). -/
def toInt32 (n : Int) : Int :=
  let m := n % 4294967296
  if m < 2147483648 then m else m - 4294967296

/-- One step of the hash loop of `APIService.simpleHash`:
`hash = ((hash << 5) - hash) + char; hash = hash & hash`.
`hash << 5` coerces to int32 before shifting; the outer `& hash`
coerces the sum back to int32. -/
def simpleHashStep (h : Int) (c : Nat) : Int :=
  toInt32 (toInt32 (h * 32) - h + (c : Int))

/-- Hash accumulator over a list of UTF-16 code units. -/
def simpleHashList (cs : List Nat) (h : Int) : Int :=
  match cs with
  | [] => h
  | c :: rest => simpleHashList rest (simpleHashStep h c)

/-- The integer value computed by `APIService.simpleHash` before the
final `Math.abs(...).toString(36)`. -/
def simpleHashInt (s : String) : Int :=
  simpleHashList (s.toList.map Char.toNat) 0

/-- Digit character of base-36 positional notation, as produced by
JavaScript `Number.prototype.toString(36)` (digits then lowercase). -/
def base36Digit (n : Nat) : Char :=
  if n < 10 then Char.ofNat (48 + n) else Char.ofNat (87 + n)

/-- Digit expansion for `natToBase36`; the fuel bounds the recursion
depth structurally (any fuel above `log36 n` gives the exact digits). -/
def natToBase36Go (fuel n : Nat) : List Char :=
  match fuel with
  | 0 => []
  | fuel + 1 =>
    if n < 36 then [base36Digit n]
    else natToBase36Go fuel (n / 36) ++ [base36Digit (n % 36)]

/-- Base-36 rendering of a natural number, as JS `n.toString(36)`. -/
def natToBase36 (n : Nat) : String :=
  String.mk (natToBase36Go (n + 1) n)

/-- Full `APIService.simpleHash`: `Math.abs(hash).toString(36)`. -/
def simpleHash (s : String) : String :=
  natToBase36 (simpleHashInt s).natAbs

/-- Closed error taxonomy of the service (`APIErrorType` from
`api.types`), as populated by `createAPIError` call sites and
`getErrorTypeFromStatus`. -/
inductive APIErrorType
  | AUTH_ERROR
  | RATE_LIMIT_ERROR
  | INVALID_REQUEST
  | SERVER_ERROR
  | NETWORK_ERROR
  | TIMEOUT_ERROR
  | UNKNOWN_ERROR
deriving DecidableEq, Repr

/-- A thrown JavaScript value as it flows through the service's catch
blocks. `apiErr` is a plain object literal produced by
`createAPIError` (it has a `type` field but is not an `instanceof
Error`); `jsError` is a genuine `Error` instance without a `type`
field (e.g. a runtime `TypeError`). -/
inductive Thrown
  | apiErr (t : APIErrorType) (message : String)
  | jsError (message : String)
deriving DecidableEq, Repr

/-- Evaluation of the guard `error instanceof Error && (error as any).type`
used by both `APIService.transformImage` and
`ImageTransformManager.transformImage` before rethrowing. A
`createAPIError` object is not an `Error` instance, and a genuine
`Error` has no `type` field, so the guard is false for every value the
system actually throws. -/
def instanceofErrorWithType : Thrown → Bool
  | .apiErr _ _ => false
  | .jsError _ => false

/-- Error kind of a thrown value, if it carries one. -/
def thrownType : Thrown → Option APIErrorType
  | .apiErr t _ => some t
  | .jsError _ => none

/-- Mapping of HTTP status to error kind,
`APIService.getErrorTypeFromStatus`. -/
def getErrorTypeFromStatus (status : Nat) : APIErrorType :=
  if status = 401 ∨ status = 403 then .AUTH_ERROR
  else if status = 429 then .RATE_LIMIT_ERROR
  else if 400 ≤ status ∧ status < 500 then .INVALID_REQUEST
  else if 500 ≤ status then .SERVER_ERROR
  else .UNKNOWN_ERROR

/-- Retryability verdict, `APIService.isRetryableError`: the list of
retryable kinds is exactly `NETWORK_ERROR`, `TIMEOUT_ERROR`,
`SERVER_ERROR`; any thrown value without one of those `type`s
(including a genuine `Error`, whose `type` is `undefined`) is not
retryable. -/
def isRetryableError (e : Thrown) : Bool :=
  match thrownType e with
  | some .NETWORK_ERROR => true
  | some .TIMEOUT_ERROR => true
  | some .SERVER_ERROR => true
  | _ => false

/-- Exponential backoff delay of `APIService.calculateRetryDelay`:
`Math.min(1000 * Math.pow(2, attempt - 1), 10000)`. -/
def calculateRetryDelay (attempt : Nat) : Nat :=
  min (1000 * 2 ^ (attempt - 1)) 10000

/-- A JSON-serializable JavaScript value as it occurs in
`TransformOptions` and in the wire request: a number (modelled exactly
as a rational; every number the system manipulates is a finite decimal)
or a string. -/
inductive JsonVal
  | num (q : ℚ)
  | str (s : String)
deriving DecidableEq, Repr

/-- Fractional decimal digits of the fraction `n / den` (with
`n < den`), most significant first, up to `fuel` digits, stopping when
the remainder reaches 0 (JS prints the shortest exactly-representable
decimal; the decimals in this system are finite). -/
def fracDigitsN : Nat → Nat → Nat → List Nat
  | 0, _, _ => []
  | fuel + 1, n, den =>
    if n = 0 then []
    else (n * 10 / den) :: fracDigitsN fuel (n * 10 % den) den

/-- Decimal rendering of a rational, as JavaScript number-to-string
(`JSON.stringify` of a number): integers without a decimal point,
finite decimals with one. -/
def jsNumToString (q : ℚ) : String :=
  let sign := if q.num < 0 then "-" else ""
  let n : Nat := q.num.natAbs
  let frac := fracDigitsN 20 (n % q.den) q.den
  if frac.isEmpty then sign ++ toString (n / q.den)
  else sign ++ toString (n / q.den) ++ "." ++ String.mk (frac.map base36Digit)

/-- Serialization of a single JSON value (`JSON.stringify` of the
value; string escaping is omitted because every string serialized by
the system is escape-free). -/
def jsonValToString : JsonVal → String
  | .num q => jsNumToString q
  | .str s => "\"" ++ s ++ "\""

/-- Serialization of an object literal with the given own-properties in
insertion order, as `JSON.stringify` renders it. -/
def jsonStringifyObj (fields : List (String × JsonVal)) : String :=
  "\x7b" ++ String.intercalate ","
    (fields.map fun f => "\"" ++ f.1 ++ "\":" ++ jsonValToString f.2) ++ "\x7d"

/-- The `TransformOptions` argument: the caller's own-properties in
insertion order. A well-typed caller never passes a `transformType`
property here. -/
abbrev TransformOptions := List (String × JsonVal)

/-- Property lookup on an options object (`options.k`), `none` when the
property is absent (`undefined`). -/
def optLookup (opts : TransformOptions) (k : String) : Option JsonVal :=
  (opts.find? fun p => p.1 == k).map Prod.snd

/-- JavaScript truthiness on the values at hand: the number `0` and the
empty string are falsy. -/
def jsFalsy : JsonVal → Bool
  | .num q => q.num == 0
  | .str s => s == ""

/-- The `a || b` default-application idiom of `performTransformation`:
an absent or falsy property falls back to the default. -/
def jsOr (v : Option JsonVal) (d : JsonVal) : JsonVal :=
  match v with
  | some x => if jsFalsy x then d else x
  | none => d

/-- Request-key derivation, `APIService.generateRequestKey`: combines
`simpleHash` of the image payload with `simpleHash` of
`JSON.stringify(\x7b transformType, ...options \x7d)`. The options
serialized are the caller's raw options: defaults are not applied
first. -/
def generateRequestKey (imageBase64 ttype : String) (opts : TransformOptions) : String :=
  let imageHash := simpleHash imageBase64
  let optionsStr := jsonStringifyObj (("transformType", .str ttype) :: opts)
  imageHash ++ "_" ++ simpleHash optionsStr

/-- Strip a `data:image/<letters>;base64,` front matter if present,
`APIService.cleanBase64` (the regex `^data:image\/[a-z]+;base64,`). -/
def cleanBase64 (s : String) : String :=
  let cs := s.toList
  if List.isPrefixOf ("data:image/".toList) cs then
    let rest := cs.drop 11
    let letters := rest.takeWhile fun c => decide (97 ≤ c.toNat) && decide (c.toNat ≤ 122)
    if letters.length > 0 && List.isPrefixOf (";base64,".toList) (rest.drop letters.length) then
      String.mk ((rest.drop letters.length).drop 8)
    else s
  else s

/-- Re-attach the data-URI front matter, `APIService.addBase64Prefix`. -/
def withDataUri (s : String) : String :=
  if List.isPrefixOf ("data:".toList) s.toList then s
  else "data:image/jpeg;base64," ++ s

/-- Transform intent, `'light' | 'heavy'`. -/
inductive TType
  | light
  | heavy
deriving DecidableEq, Repr

/-- String form of a transform type as it is serialized into the
request key. -/
def ttypeStr : TType → String
  | .light => "light"
  | .heavy => "heavy"

/-- The `jimengAI` section of the API configuration consumed by
`APIService` (shape as exercised by the repository's test fixture). -/
structure JimengConfig where
  endpoint : String
  apiKey : String
  defaultModel : String
  promptLight : String
  promptHeavy : String
  strengthLight : ℚ
  strengthHeavy : ℚ
  steps : ℚ
  guidanceScale : ℚ
  width : ℚ
  height : ℚ
  timeout : Nat
  retryCount : Nat
deriving DecidableEq, Repr

/-- Default prompt for a transform type, `transformPrompts[transformType]`. -/
def promptFor (cfg : JimengConfig) : TType → String
  | .light => cfg.promptLight
  | .heavy => cfg.promptHeavy

/-- Default strength for a transform type,
`defaultParams.strength[transformType]`. -/
def strengthFor (cfg : JimengConfig) : TType → ℚ
  | .light => cfg.strengthLight
  | .heavy => cfg.strengthHeavy

/-- Wire request built by `performTransformation` (lines 149–159 of
`APIService.ts`): every numeric parameter is resolved against the
config default with the `||` idiom; `seed` is passed through
unresolved. -/
structure JimengRequest where
  model : String
  prompt : JsonVal
  image : String
  strength : JsonVal
  steps : JsonVal
  guidanceScale : JsonVal
  width : JsonVal
  height : JsonVal
  seed : Option JsonVal
deriving DecidableEq, Repr

/-- Construction of the wire request from config, raw image and raw
options, as `performTransformation` does before its retry loop. -/
def buildRequest (cfg : JimengConfig) (imageBase64 : String) (t : TType)
    (opts : TransformOptions) : JimengRequest :=
  { model := cfg.defaultModel
    prompt := jsOr (optLookup opts "customPrompt") (.str (promptFor cfg t))
    image := cleanBase64 imageBase64
    strength := jsOr (optLookup opts "strength") (.num (strengthFor cfg t))
    steps := jsOr (optLookup opts "steps") (.num cfg.steps)
    guidanceScale := jsOr (optLookup opts "guidance_scale") (.num cfg.guidanceScale)
    width := jsOr (optLookup opts "width") (.num cfg.width)
    height := jsOr (optLookup opts "height") (.num cfg.height)
    seed := optLookup opts "seed" }

/-- One cache slot, `CacheEntry` of `APIService.ts`: `timestamp` is the
creation time and `expiresAt = timestamp + 24h` (86400000 ms). -/
structure CacheEntry where
  key : String
  result : String
  timestamp : Nat
  expiresAt : Nat
deriving DecidableEq, Repr

/-- The `requestCache` JavaScript `Map`, as an insertion-ordered
association list. -/
abbrev CacheMap := List (String × CacheEntry)

/-- JS `Map.get`. -/
def mapLookup (m : CacheMap) (k : String) : Option CacheEntry :=
  (m.find? fun p => p.1 == k).map Prod.snd

/-- JS `Map.set`: updates an existing key in place (keeping its
insertion position) or appends a new one. -/
def mapSet (m : CacheMap) (k : String) (v : CacheEntry) : CacheMap :=
  match m with
  | [] => [(k, v)]
  | (k0, v0) :: rest => if k0 = k then (k0, v) :: rest else (k0, v0) :: mapSet rest k v

/-- JS `Map.delete` (keys are unique in a JS map, so removing the first
occurrence is exact). -/
def mapDelete (m : CacheMap) (k : String) : CacheMap :=
  match m with
  | [] => []
  | (k0, v0) :: rest => if k0 = k then rest else (k0, v0) :: mapDelete rest k

/-- Cache lookup with lazy expiry, `APIService.getCachedResult`: an
entry is a hit while `now > expiresAt` is false (so exactly at
`expiresAt` it is still a hit); an expired entry is deleted and
reported absent. Returns the result (if any) and the updated map. -/
def getCachedResult (now : Nat) (m : CacheMap) (imageBase64 ttype : String)
    (opts : TransformOptions) : Option String × CacheMap :=
  let key := generateRequestKey imageBase64 ttype opts
  match mapLookup m key with
  | none => (none, m)
  | some entry =>
    if now > entry.expiresAt then (none, mapDelete m key)
    else (some entry.result, m)

/-- Milliseconds in the fixed 24-hour TTL of `cacheResult`. -/
def cacheTTL : Nat := 86400000

/-- Cache insertion, `APIService.cacheResult`: when the map has reached
`maxCacheSize`, the first (oldest-inserted) key is deleted before the
insert — unless the map is empty or that key is the empty string, in
which case the `if (oldestKey)` truthiness guard skips the delete. -/
def cacheResult (maxCacheSize now : Nat) (m : CacheMap) (k result : String) : CacheMap :=
  let m1 :=
    if m.length ≥ maxCacheSize then
      match m with
      | [] => m
      | (k0, _) :: _ => if k0 = "" then m else mapDelete m k0
    else m
  mapSet m1 k { key := k, result := result, timestamp := now, expiresAt := now + cacheTTL }

/-- Parsed body of one exchange with the remote service
(`JimengImageTransformResponse`): `dataImage` is `response.data?.image`
(collapsing an absent `data` and an absent `image`). -/
structure JimengResponse where
  success : Bool
  dataImage : Option String
  message : Option String
  errorMsg : Option String
deriving DecidableEq, Repr

/-- The `a || b` idiom on optional strings (used for
`response.message || response.error || 'Transformation failed'`). -/
def jsOrS (a : Option String) (b : String) : String :=
  match a with
  | some s => if s == "" then b else s
  | none => b

/-- The network oracle: outcome of the `idx`-th network exchange
(`makeAPIRequest`), either a parsed response or a thrown classified
error. The index counts exchanges performed so far, so a single oracle
describes a whole multi-attempt run. -/
abbrev NetOracle := Nat → Except Thrown JimengResponse

/-- The body of one iteration of `performTransformation`'s try block:
run the exchange; a truthy `response.success && response.data?.image`
yields the prefixed image, anything else throws a `SERVER_ERROR`
(note the empty-string image counts as falsy). -/
def attemptOnce (net : NetOracle) (idx : Nat) : Except Thrown String :=
  match net idx with
  | .error e => .error e
  | .ok resp =>
    let truthyImage :=
      match resp.dataImage with
      | some img => !(img == "")
      | none => false
    if resp.success && truthyImage then
      .ok (withDataUri ((resp.dataImage).getD ""))
    else
      .error (.apiErr .SERVER_ERROR
        (jsOrS resp.message (jsOrS resp.errorMsg "Transformation failed")))

deriving instance DecidableEq for Except

/-- Observable trace of a (possibly retried) execution: the settled
outcome, the number of network exchanges performed, and the backoff
delays slept, in order. -/
structure RunTrace where
  outcome : Except Thrown String
  attempts : Nat
  sleeps : List Nat
deriving DecidableEq, Repr

/-- The retry loop of `performTransformation`
(`for attempt in 1..maxRetries`): on failure the loop stops (throwing
the last error) when `attempt === maxRetries` or the error is not
retryable, and otherwise sleeps `calculateRetryDelay attempt` and
retries. `remaining` is the structural fuel (`maxRetries - attempt + 1`
at every reachable call); fuel 0 is reached only when `maxRetries = 0`,
where the source throws
`createAPIError('UNKNOWN_ERROR', 'All retry attempts failed')`. -/
def performAttempts (net : NetOracle) (maxRetries : Nat) :
    Nat → Nat → Nat → RunTrace
  | 0, _, _ =>
    { outcome := .error (.apiErr .UNKNOWN_ERROR "All retry attempts failed")
      attempts := 0, sleeps := [] }
  | remaining + 1, attempt, idx =>
    match attemptOnce net idx with
    | .ok img => { outcome := .ok img, attempts := 1, sleeps := [] }
    | .error e =>
      if attempt = maxRetries || !isRetryableError e then
        { outcome := .error e, attempts := 1, sleeps := [] }
      else
        let rest := performAttempts net maxRetries remaining (attempt + 1) (idx + 1)
        { outcome := rest.outcome
          attempts := rest.attempts + 1
          sleeps := calculateRetryDelay attempt :: rest.sleeps }

/-- Full `performTransformation` starting at network index `idx`:
`maxRetries` is `enableRetry ? retryCount : 1` (the wire request built
before the loop is `buildRequest`, which the network oracle
abstracts). -/
def performTransformation (cfg : JimengConfig) (enableRetry : Bool) (net : NetOracle)
    (idx : Nat) : RunTrace :=
  let maxRetries := if enableRetry then cfg.retryCount else 1
  performAttempts net maxRetries maxRetries 1 idx

/-- Catch-block guard of `APIService.transformImage`: a thrown value
that is not an `Error` instance with a `type` field is replaced by
`createAPIError('UNKNOWN_ERROR', 'Image transformation failed')`.
No value the service throws passes the guard, because `createAPIError`
builds object literals. -/
def svcRewrap (e : Thrown) : Thrown :=
  if instanceofErrorWithType e then e
  else .apiErr .UNKNOWN_ERROR "Image transformation failed"

/-- Mutable state of one `APIService` instance: the result cache, the
in-flight registry (key to pending-promise handle), the request-id
counter, a fresh-promise allocator, and a ghost counter of how many
`performTransformation` executions have been started (for the
single-flight claim). -/
structure SvcState where
  cache : CacheMap
  active : List (String × Nat)
  requestIdCounter : Nat
  nextPromiseId : Nat
  executions : Nat
deriving DecidableEq, Repr

/-- Result of the synchronous head of `APIService.transformImage`, up
to (and including) the registration of a fresh request: the call either
throws `AUTH_ERROR` (no key), returns a cached result, attaches to the
pending promise of an identical in-flight request, or starts a new
execution. Everything up to here runs without an `await`, so in the JS
event-loop model it is atomic. -/
inductive CallStart
  | authFail
  | cached (result : String)
  | joined (p : Nat)
  | started (p : Nat)
deriving DecidableEq, Repr

/-- Synchronous head of `APIService.transformImage` (lines 84–114):
missing-key check, cache lookup (when enabled), in-flight lookup by
`generateRequestKey`, and otherwise start-and-register. -/
def transformImageStart (enableCache : Bool) (apiKey : String) (now : Nat)
    (st : SvcState) (img : String) (t : TType) (opts : TransformOptions) :
    SvcState × CallStart :=
  if apiKey == "" then (st, .authFail)
  else
    let st1 := { st with requestIdCounter := st.requestIdCounter + 1 }
    let cacheStep :=
      if enableCache then getCachedResult now st1.cache img (ttypeStr t) opts
      else (none, st1.cache)
    match cacheStep with
    | (some r, cache1) => ({ st1 with cache := cache1 }, .cached r)
    | (none, cache1) =>
      let st2 := { st1 with cache := cache1 }
      let key := generateRequestKey img (ttypeStr t) opts
      match (st2.active.find? fun p => p.1 == key).map Prod.snd with
      | some p => (st2, .joined p)
      | none =>
        let p := st2.nextPromiseId
        ({ st2 with
            nextPromiseId := p + 1
            executions := st2.executions + 1
            active := st2.active ++ [(key, p)] },
          .started p)

/-- One complete sequential execution of `APIService.transformImage`
with no concurrent caller: the synchronous head as in
`transformImageStart`, then the awaited `performTransformation`, the
success-path `cacheResult`, the `finally` removal of the in-flight
entry, and the catch-block rewrap on failure. The `joined` branch
cannot settle in a sequential world; it is modelled as an unreachable
marker and every theorem about this function runs it from states whose
registry has no entry for the request's key. -/
def transformImageSeq (cfg : JimengConfig) (enableCache enableRetry : Bool)
    (maxCacheSize : Nat) (net : NetOracle) (now : Nat) (st : SvcState)
    (img : String) (t : TType) (opts : TransformOptions) (idx : Nat) :
    SvcState × RunTrace :=
  match transformImageStart enableCache cfg.apiKey now st img t opts with
  | (st1, .authFail) =>
    (st1, { outcome := .error (.apiErr .AUTH_ERROR "API key not configured")
            attempts := 0, sleeps := [] })
  | (st1, .cached r) => (st1, { outcome := .ok r, attempts := 0, sleeps := [] })
  | (st1, .joined _) =>
    (st1, { outcome := .error (.jsError "sequential model: no pending twin")
            attempts := 0, sleeps := [] })
  | (st1, .started _) =>
    let key := generateRequestKey img (ttypeStr t) opts
    let run := performTransformation cfg enableRetry net idx
    let st2 := { st1 with active := st1.active.filter fun p => !(p.1 == key) }
    match run.outcome with
    | .ok r =>
      let cache2 := if enableCache then cacheResult maxCacheSize now st2.cache key r
        else st2.cache
      ({ st2 with cache := cache2 }, { run with outcome := .ok r })
    | .error e => (st2, { run with outcome := .error (svcRewrap e) })

/-- Plain error object of the orchestrator
(`ImageTransformManager.createError`): an object literal with a string
`type`, again not an `instanceof Error`. -/
structure GameError where
  type : String
  message : String
deriving DecidableEq, Repr

/-- A value thrown inside the orchestrator: either one of its own
`createError` objects or a value rethrown from the service. -/
inductive MgrThrown
  | gameErr (e : GameError)
  | svcErr (e : Thrown)
deriving DecidableEq, Repr

/-- The guard `error instanceof Error && (error as any).type` of
`ImageTransformManager.transformImage`'s catch block: false for every
value this system throws (both layers throw object literals). -/
def mgrInstanceofErrorWithType : MgrThrown → Bool
  | .gameErr _ => false
  | .svcErr e => instanceofErrorWithType e

/-- A completed transform as recorded in history
(`TransformResult` of `ImageTransformManager.ts`); the
`HTMLImageElement`s are modelled by their base64 source strings. -/
structure TransformResult where
  success : Bool
  transformedImage : Option String
  originalImage : String
  transformType : TType
  processingTime : Nat
  error : Option GameError
deriving DecidableEq, Repr

/-- Per-type options the orchestrator passes to the service
(`performTransform` lines 240–243): strength 0.8 / steps 40 for heavy,
strength 0.4 / steps 30 for light. -/
def mgrOptions (t : TType) : TransformOptions :=
  [("strength", .num (if t = .heavy then mkRat 8 10 else mkRat 4 10)),
   ("steps", .num (if t = .heavy then mkRat 40 1 else mkRat 30 1))]

/-- The orchestrator's own retry loop,
`ImageTransformManager.performTransform`
(`for attempt in 1..maxTransformAttempts`): each iteration awaits a
full `APIService.transformImage` call (itself an inner retry loop); on
failure of any kind it sleeps `min(1000 * attempt, 5000)` and retries
while `attempt < maxTransformAttempts`, and after the loop throws the
last error (`createError('API_ERROR', 'All transform attempts failed')`
when no attempt ran). `remaining` is structural fuel,
`maxTransformAttempts - attempt + 1` at every reachable call. Returns
the final service state, the outcome, the total network-exchange count
and the concatenated sleeps of both layers. -/
def mgrAttempts (cfg : JimengConfig) (enableCache enableRetry : Bool)
    (maxCacheSize : Nat) (net : NetOracle) (now : Nat)
    (maxTransformAttempts : Nat) (img : String) (t : TType) :
    Nat → Nat → SvcState → Nat → SvcState × (Except MgrThrown String × Nat × List Nat)
  | 0, _, st, _ =>
    (st, (.error (.gameErr ⟨"API_ERROR", "All transform attempts failed"⟩), 0, []))
  | remaining + 1, attempt, st, idx =>
    let step := transformImageSeq cfg enableCache enableRetry maxCacheSize net now st
      img t (mgrOptions t) idx
    match step.2.outcome with
    | .ok r => (step.1, (.ok r, step.2.attempts, step.2.sleeps))
    | .error e =>
      if attempt < maxTransformAttempts then
        let d := min (1000 * attempt) 5000
        let rest := mgrAttempts cfg enableCache enableRetry maxCacheSize net now
          maxTransformAttempts img t remaining (attempt + 1) step.1 (idx + step.2.attempts)
        (rest.1, (rest.2.1, step.2.attempts + rest.2.2.1, step.2.sleeps ++ d :: rest.2.2.2))
      else
        (step.1, (.error (.svcErr e), step.2.attempts, step.2.sleeps))

/-- Outcome of one `ImageTransformManager.transformImage` call: the
recorded result, the error rethrown to the caller (if any), the service
state after the call, the appended-to history, and the number of
network exchanges performed. -/
structure MgrRun where
  result : TransformResult
  raised : Option GameError
  svc : SvcState
  history : List TransformResult
  networkAttempts : Nat
  sleeps : List Nat
deriving DecidableEq, Repr

/-- One full `ImageTransformManager.transformImage` call. The
`isTransforming` guard rejects reentrancy with a `VALIDATION_ERROR`
before anything else. Image preparation (`prepareImageForTransform`,
delegated to the external `ImageManager`) is the identity on the given
base64 payload, and `createImageFromBase64` succeeds, modelling the
image by its source string — both are external collaborators outside
the orchestration core. On failure the caught value is replaced by
`createError('API_ERROR', 'Transform failed')` (the guard
`mgrInstanceofErrorWithType` never holds), recorded in history, and
rethrown; on success the result is recorded. `elapsed` is the
`Date.now() - startTime` processing-time measurement. -/
def mgrTransformImage (cfg : JimengConfig) (enableCache enableRetry : Bool)
    (maxCacheSize maxTransformAttempts : Nat) (net : NetOracle)
    (now elapsed : Nat) (isTransforming : Bool) (st : SvcState)
    (history : List TransformResult) (imgB64 : String) (t : TType) :
    Except GameError MgrRun :=
  if isTransforming then .error ⟨"VALIDATION_ERROR", "Transform already in progress"⟩
  else
    let run := mgrAttempts cfg enableCache enableRetry maxCacheSize net now
      maxTransformAttempts imgB64 t maxTransformAttempts 1 st 0
    match run.2.1 with
    | .ok transformed =>
      let result : TransformResult :=
        { success := true
          transformedImage := some transformed
          originalImage := imgB64
          transformType := t
          processingTime := elapsed
          error := none }
      .ok { result := result, raised := none, svc := run.1
            history := history ++ [result]
            networkAttempts := run.2.2.1, sleeps := run.2.2.2 }
    | .error e =>
      let transformError : GameError :=
        if mgrInstanceofErrorWithType e then
          match e with
          | .gameErr g => g
          | .svcErr _ => ⟨"API_ERROR", "Transform failed"⟩
        else ⟨"API_ERROR", "Transform failed"⟩
      let result : TransformResult :=
        { success := false
          transformedImage := none
          originalImage := imgB64
          transformType := t
          processingTime := elapsed
          error := some transformError }
      .ok { result := result, raised := some transformError, svc := run.1
            history := history ++ [result]
            networkAttempts := run.2.2.1, sleeps := run.2.2.2 }

/-- Per-element outcome list of `APIService.batchTransformImages`: the
settled `transformImage` outcome of each element in input order,
threading the service state and the network index through the whole
batch. -/
def batchOutcomes (cfg : JimengConfig) (enableCache enableRetry : Bool)
    (maxCacheSize : Nat) (net : NetOracle) (now : Nat) :
    List (String × TType × TransformOptions) → SvcState → Nat →
      List (Except Thrown String)
  | [], _, _ => []
  | (data, t, opts) :: rest, st, idx =>
    let step := transformImageSeq cfg enableCache enableRetry maxCacheSize net now st
      data t opts idx
    step.2.outcome ::
      batchOutcomes cfg enableCache enableRetry maxCacheSize net now rest step.1
        (idx + step.2.attempts)

/-- The `APIService.batchTransformImages` loop: one sequential
`transformImage` per element, pushing the result on success and the
empty string when the call throws (the `catch` swallows the error); the
`onProgress` callback is observational only and is not modelled.
Returns the final service state and the results in input order. -/
def batchTransformImages (cfg : JimengConfig) (enableCache enableRetry : Bool)
    (maxCacheSize : Nat) (net : NetOracle) (now : Nat) :
    List (String × TType × TransformOptions) → SvcState → Nat →
      SvcState × List String
  | [], st, _ => (st, [])
  | (data, t, opts) :: rest, st, idx =>
    let step := transformImageSeq cfg enableCache enableRetry maxCacheSize net now st
      data t opts idx
    let entry :=
      match step.2.outcome with
      | .ok r => r
      | .error _ => ""
    let restRun := batchTransformImages cfg enableCache enableRetry maxCacheSize net now
      rest step.1 (idx + step.2.attempts)
    (restRun.1, entry :: restRun.2)

/-- Reference-aware model of the orchestrator's mutable `TransformState`
for the snapshot claims: arrays live in a heap addressed by `Nat`
references, so that JavaScript's shallow `{ ...this.state }` copy
(which copies the array reference, not the array) is expressible. -/
structure MgrHeap where
  arrays : Nat → List TransformResult
  nextRef : Nat

/-- The `TransformState` record; `transformHistoryRef` is the heap
reference of the `transformHistory` array. -/
structure TransformStateObj where
  isTransforming : Bool
  currentPhase : String
  progress : Nat
  lastTransformTime : Nat
  transformHistoryRef : Nat
  failedAttempts : Nat

/-- An `ImageTransformManager` instance as heap plus state record. -/
structure MgrObj where
  heap : MgrHeap
  state : TransformStateObj

/-- The history array the orchestrator itself reads and writes. -/
def internalHistory (m : MgrObj) : List TransformResult :=
  m.heap.arrays m.state.transformHistoryRef

/-- The `getState()` accessor: `return { ...this.state }` — a shallow
copy; every scalar field is copied by value, but `transformHistory`
remains the same array reference. -/
def getState (m : MgrObj) : TransformStateObj :=
  m.state

/-- The `getTransformHistory()` accessor:
`return [...this.state.transformHistory]` — allocates a fresh array
holding a copy of the internal one and returns its reference. -/
def getTransformHistory (m : MgrObj) : MgrObj × Nat :=
  let fresh := m.heap.nextRef
  ({ m with
      heap :=
        { arrays := fun r =>
            if r = fresh then m.heap.arrays m.state.transformHistoryRef
            else m.heap.arrays r
          nextRef := fresh + 1 } },
    fresh)

/-- An external consumer mutating an array it received:
`array.push(x)` through the reference `ref`. -/
def pushAt (m : MgrObj) (ref : Nat) (x : TransformResult) : MgrObj :=
  { m with
      heap :=
        { m.heap with
            arrays := fun r =>
              if r = ref then m.heap.arrays ref ++ [x] else m.heap.arrays r } }

/-- Sequential driver for history claims: run one
`ImageTransformManager.transformImage` per scenario (image, type, and
that call's network behaviour), threading service state and history.
`isTransforming` is false at each entry because the source's `finally`
block clears it before the call returns. -/
def runTransforms (cfg : JimengConfig) (enableCache enableRetry : Bool)
    (maxCacheSize maxTransformAttempts : Nat) (now elapsed : Nat) :
    List (String × TType × NetOracle) → SvcState → List TransformResult →
      SvcState × List TransformResult
  | [], st, h => (st, h)
  | (img, t, net) :: rest, st, h =>
    match mgrTransformImage cfg enableCache enableRetry maxCacheSize
        maxTransformAttempts net now elapsed false st h img t with
    | .ok run =>
      runTransforms cfg enableCache enableRetry maxCacheSize maxTransformAttempts
        now elapsed rest run.svc run.history
    | .error _ => (st, h)

/-- One externally visible operation on the result cache, as reachable
through the public `APIService` surface: an insertion (whose key the
service always derives with `generateRequestKey`), a lookup, or
`clearCache`. -/
inductive CacheOp where
  | put (img ttype : String) (opts : TransformOptions) (result : String) (now : Nat)
  | lookup (img ttype : String) (opts : TransformOptions) (now : Nat)
  | clear

/-- Effect of one cache operation on the map. -/
def applyCacheOp (maxCacheSize : Nat) (m : CacheMap) : CacheOp → CacheMap
  | .put img ttype opts result now =>
    cacheResult maxCacheSize now m (generateRequestKey img ttype opts) result
  | .lookup img ttype opts now => (getCachedResult now m img ttype opts).2
  | .clear => []

/-- The cache after a sequence of operations, starting (as at service
construction) from the empty map. -/
def runCacheOps (maxCacheSize : Nat) (ops : List CacheOp) : CacheMap :=
  ops.foldl (applyCacheOp maxCacheSize) []

/-- The API configuration of the repository's unit-test fixture
(`__tests__/APIService.test.ts`), used for concrete counterexamples. -/
def mockConfig : JimengConfig :=
  { endpoint := "https://api.jimengai.com/image2image"
    apiKey := "test-api-key"
    defaultModel := "test-model"
    promptLight := "slightly damaged"
    promptHeavy := "heavily damaged"
    strengthLight := mkRat 3 10
    strengthHeavy := mkRat 7 10
    steps := mkRat 30 1
    guidanceScale := mkRat 10 1
    width := mkRat 512 1
    height := mkRat 512 1
    timeout := 30000
    retryCount := 3 }

/-- A freshly constructed service: empty cache and empty in-flight
registry. -/
def emptySvc : SvcState :=
  { cache := [], active := [], requestIdCounter := 0, nextPromiseId := 0, executions := 0 }

/-- A remote service failing every exchange with HTTP 500, classified
`SERVER_ERROR`. -/
def serverNet : NetOracle :=
  fun _ => .error (.apiErr .SERVER_ERROR "HTTP 500: Internal Server Error")

/-- A remote service failing every exchange with HTTP 429, classified
`RATE_LIMIT_ERROR`. -/
def rateLimitNet : NetOracle :=
  fun _ => .error (.apiErr .RATE_LIMIT_ERROR "HTTP 429: Too Many Requests")

/-- A remote service succeeding on every exchange. -/
def okNet : NetOracle :=
  fun _ => .ok { success := true, dataImage := some "transformed-image"
                 message := some "Success", errorMsg := none }

/-- The orchestrator run of the retry-bound scenario: the test-fixture
config (service `retryCount` 3), orchestrator `maxTransformAttempts` 3,
always-HTTP-500 remote. -/
def retryBoundRun : Except GameError MgrRun :=
  mgrTransformImage mockConfig true true 50 3 serverNet 0 7 false emptySvc [] "img" .light

/-- Key of the cache fixture entry. -/
def demoKey : String := generateRequestKey "i" "light" []

/-- One-entry cache whose entry was created at time 0, so it expires at
`cacheTTL`. -/
def demoCache : CacheMap :=
  [(demoKey, { key := demoKey, result := "res", timestamp := 0, expiresAt := cacheTTL })]

/-- First call of the single-flight scenario, on a fresh service. -/
def startDemo : SvcState × CallStart :=
  transformImageStart true "test-api-key" 0 emptySvc "i" .light []

/-- A sample successful result. -/
def resA : TransformResult :=
  { success := true, transformedImage := some "a", originalImage := "o"
    transformType := .light, processingTime := 5, error := none }

/-- A sample failed result. -/
def resB : TransformResult :=
  { success := false, transformedImage := none, originalImage := "o"
    transformType := .heavy, processingTime := 6
    error := some ⟨"API_ERROR", "Transform failed"⟩ }

/-- A manager whose internal history array `[resA]` lives at heap
reference 0, with reference 1 the next free slot. -/
def demoMgr : MgrObj :=
  { heap := { arrays := fun r => if r = 0 then [resA] else [], nextRef := 1 }
    state := { isTransforming := false, currentPhase := "completed", progress := 0
               lastTransformTime := 0, transformHistoryRef := 0, failedAttempts := 0 } }

/-- Three successful transform scenarios for the history-bound
counterexample. -/
def threeTransforms : List (String × TType × NetOracle) :=
  [("i", .light, okNet), ("i", .light, okNet), ("i", .light, okNet)]

/-- C8: for every attempt number n ≥ 1, the retry delay computed by
`calculateRetryDelay` equals `min(1000 · 2^(n−1), 10000)` — base
1000 ms, cap 10000 ms — and, being a pure function of n, it is
deterministic (no jitter). -/
theorem C8_retry_delay (n : Nat) (_h : 1 ≤ n) :
    calculateRetryDelay n = min (1000 * 2 ^ (n - 1)) 10000 := rfl

/-- Witness for C8 at n = 3. -/
theorem C8_retry_delay_witness :
    1 ≤ 3 ∧ calculateRetryDelay 3 = min (1000 * 2 ^ (3 - 1)) 10000 :=
  ⟨by decide, C8_retry_delay 3 (by decide)⟩

/-- C4 counterexample: with the test-fixture config (`retryCount` 3,
retries enabled) and a remote failing attempt 1 with a classified
`RATE_LIMIT_ERROR` (HTTP 429), `performTransformation` performs exactly
one attempt and sleeps no backoff delay — it stops immediately even
though the attempt number is below the maximum, contradicting the
claim that `RATE_LIMIT_ERROR` is retryable with backoff. -/
theorem C4_counterexample :
    (performTransformation mockConfig true rateLimitNet 0).attempts = 1 ∧
    (performTransformation mockConfig true rateLimitNet 0).sleeps = [] ∧
    (performTransformation mockConfig true rateLimitNet 0).outcome =
      .error (.apiErr .RATE_LIMIT_ERROR "HTTP 429: Too Many Requests") ∧
    mockConfig.retryCount = 3 ∧
    getErrorTypeFromStatus 429 = APIErrorType.RATE_LIMIT_ERROR := by
  decide

/-- C4 amended: HTTP 429 is classified `RATE_LIMIT_ERROR`, but
`RATE_LIMIT_ERROR` is not in `isRetryableError`'s retryable list, so an
attempt failing with it terminates the retry loop immediately — exactly
one attempt, no backoff sleep — whatever the configured maximum. -/
theorem C4_rate_limit_not_retried (cfg : JimengConfig) (enableRetry : Bool)
    (net : NetOracle) (idx : Nat) (msg : String)
    (hnet : net idx = .error (.apiErr .RATE_LIMIT_ERROR msg))
    (hmax : 1 ≤ (if enableRetry then cfg.retryCount else 1)) :
    performTransformation cfg enableRetry net idx =
      { outcome := .error (.apiErr .RATE_LIMIT_ERROR msg), attempts := 1, sleeps := [] } ∧
    getErrorTypeFromStatus 429 = APIErrorType.RATE_LIMIT_ERROR ∧
    isRetryableError (.apiErr .RATE_LIMIT_ERROR msg) = false := by
  refine ⟨?_, by decide, by simp [isRetryableError, thrownType]⟩
  unfold performTransformation
  obtain ⟨k, hk⟩ : ∃ k, (if enableRetry then cfg.retryCount else 1) = k + 1 :=
    ⟨(if enableRetry then cfg.retryCount else 1) - 1, by omega⟩
  rw [hk]
  unfold performAttempts
  unfold attemptOnce
  rw [hnet]
  simp [isRetryableError, thrownType]

/-- Witness for the C4 amended theorem at the test-fixture config. -/
theorem C4_rate_limit_witness :
    rateLimitNet 0 = .error (.apiErr .RATE_LIMIT_ERROR "HTTP 429: Too Many Requests") ∧
    1 ≤ (if true then mockConfig.retryCount else 1) ∧
    (performTransformation mockConfig true rateLimitNet 0 =
      { outcome := .error (.apiErr .RATE_LIMIT_ERROR "HTTP 429: Too Many Requests")
        attempts := 1, sleeps := [] } ∧
    getErrorTypeFromStatus 429 = APIErrorType.RATE_LIMIT_ERROR ∧
    isRetryableError (.apiErr .RATE_LIMIT_ERROR "HTTP 429: Too Many Requests") = false) :=
  ⟨rfl, by decide,
    C4_rate_limit_not_retried mockConfig true rateLimitNet 0
      "HTTP 429: Too Many Requests" rfl (by decide)⟩

/-- C7 counterexample: an entry inserted at T = 0 with TTL Δ =
`cacheTTL` is still a hit at the exact moment T + Δ — `getCachedResult`
returns the cached result and leaves the entry in place — whereas the
claim requires a miss (with removal) at every time ≥ T + Δ. -/
theorem C7_counterexample :
    (getCachedResult cacheTTL demoCache "i" "light" []).1 = some "res" ∧
    (getCachedResult cacheTTL demoCache "i" "light" []).2 = demoCache := by
  decide

/-- C7 amended: for a cached entry, a lookup at any time ≤ `expiresAt`
(that is, ≤ T + Δ) is a hit that leaves the cache unchanged, and a
lookup at any time > `expiresAt` is a miss that removes the entry: the
expiry comparison is strict (`now > entry.expiresAt`), so the boundary
instant T + Δ is still a hit. -/
theorem C7_cache_expiry (now : Nat) (m : CacheMap) (img ttype : String)
    (opts : TransformOptions) (entry : CacheEntry)
    (hl : mapLookup m (generateRequestKey img ttype opts) = some entry) :
    (now ≤ entry.expiresAt →
      getCachedResult now m img ttype opts = (some entry.result, m)) ∧
    (entry.expiresAt < now →
      getCachedResult now m img ttype opts =
        (none, mapDelete m (generateRequestKey img ttype opts))) := by
  unfold getCachedResult
  simp only [hl]
  constructor
  · intro h
    rw [if_neg (by omega)]
  · intro h
    rw [if_pos (by omega)]

/-- Witness for the C7 amended theorem on the one-entry fixture cache,
looked up at time 5. -/
theorem C7_cache_expiry_witness :
    mapLookup demoCache (generateRequestKey "i" "light" []) =
      some { key := demoKey, result := "res", timestamp := 0, expiresAt := cacheTTL } ∧
    ((5 ≤ cacheTTL →
      getCachedResult 5 demoCache "i" "light" [] = (some "res", demoCache)) ∧
    (cacheTTL < 5 →
      getCachedResult 5 demoCache "i" "light" [] =
        (none, mapDelete demoCache (generateRequestKey "i" "light" [])))) :=
  ⟨by decide,
    C7_cache_expiry 5 demoCache "i" "light" []
      { key := demoKey, result := "res", timestamp := 0, expiresAt := cacheTTL }
      (by decide)⟩

/-- Appending a binding for a different key does not change a lookup. -/
theorem optLookup_append_of_ne (opts : TransformOptions) (kk : String) (v : JsonVal)
    (k : String) (h : (kk == k) = false) :
    optLookup (opts ++ [(kk, v)]) k = optLookup opts k := by
  simp [optLookup, List.find?_append, List.find?_cons, h, Option.or_none]

/-- Appending a binding for an absent key makes the lookup find it. -/
theorem optLookup_append_self (opts : TransformOptions) (kk : String) (v : JsonVal)
    (h : optLookup opts kk = none) :
    optLookup (opts ++ [(kk, v)]) kk = some v := by
  have hf : opts.find? (fun p => p.1 == kk) = none := by
    cases hc : opts.find? (fun p => p.1 == kk) with
    | none => rfl
    | some x => simp [optLookup, hc] at h
  simp [optLookup, List.find?_append, List.find?_cons, hf]

/-- C5 counterexample: under the test-fixture config (default steps
30), the request omitting `steps` and the request passing `steps: 30`
explicitly resolve to the same wire request — they are logically
identical after defaults — yet `generateRequestKey` gives them
different keys, because the key is derived from the raw options. -/
theorem C5_counterexample :
    buildRequest mockConfig "img" TType.light [] =
      buildRequest mockConfig "img" TType.light [("steps", .num (mkRat 30 1))] ∧
    generateRequestKey "img" "light" [] ≠
      generateRequestKey "img" "light" [("steps", .num (mkRat 30 1))] := by
  decide

/-- C5 amended: parameters are not resolved before the RequestKey is
derived; the key hashes the raw options. For every options object
without a `steps` property, appending the config default explicitly
leaves the resolved wire request unchanged (the two requests are
logically identical), yet the derived keys differ in general — as
witnessed concretely by the omitted-vs-explicit `steps` pair. -/
theorem C5_key_from_raw_options (cfg : JimengConfig) (img : String) (t : TType)
    (opts : TransformOptions) (hno : optLookup opts "steps" = none) :
    buildRequest cfg img t (opts ++ [("steps", .num cfg.steps)]) =
      buildRequest cfg img t opts ∧
    generateRequestKey "img" "light" [] ≠
      generateRequestKey "img" "light" [("steps", .num (mkRat 30 1))] := by
  refine ⟨?_, by decide⟩
  unfold buildRequest
  rw [optLookup_append_self opts "steps" (.num cfg.steps) hno,
    optLookup_append_of_ne opts "steps" (.num cfg.steps) "customPrompt" (by decide),
    optLookup_append_of_ne opts "steps" (.num cfg.steps) "strength" (by decide),
    optLookup_append_of_ne opts "steps" (.num cfg.steps) "guidance_scale" (by decide),
    optLookup_append_of_ne opts "steps" (.num cfg.steps) "width" (by decide),
    optLookup_append_of_ne opts "steps" (.num cfg.steps) "height" (by decide),
    optLookup_append_of_ne opts "steps" (.num cfg.steps) "seed" (by decide),
    hno]
  simp [jsOr]

/-- Witness for the C5 amended theorem at empty options under the
test-fixture config. -/
theorem C5_key_from_raw_options_witness :
    optLookup [] "steps" = none ∧
    (buildRequest mockConfig "img" TType.light ([] ++ [("steps", .num mockConfig.steps)]) =
      buildRequest mockConfig "img" TType.light [] ∧
    generateRequestKey "img" "light" [] ≠
      generateRequestKey "img" "light" [("steps", .num (mkRat 30 1))]) :=
  ⟨rfl, C5_key_from_raw_options mockConfig "img" TType.light [] rfl⟩

/-- C10: `batchTransformImages` returns exactly one entry per input
element, in input order; entry i is the transformed image string when
element i's `transformImage` call settled successfully and the empty
string when it threw; no element's failure aborts the rest of the
batch or is raised to the caller (the function is total and the batch
always reaches the end of the list). -/
theorem C10_batch_isolation (cfg : JimengConfig) (ec er : Bool) (mcs : Nat)
    (net : NetOracle) (now : Nat) (items : List (String × TType × TransformOptions))
    (st : SvcState) (idx : Nat) :
    (batchTransformImages cfg ec er mcs net now items st idx).2.length = items.length ∧
    (batchTransformImages cfg ec er mcs net now items st idx).2 =
      (batchOutcomes cfg ec er mcs net now items st idx).map
        (fun o => match o with | .ok r => r | .error _ => "") ∧
    (batchOutcomes cfg ec er mcs net now items st idx).length = items.length := by
  induction items generalizing st idx with
  | nil => simp [batchTransformImages, batchOutcomes]
  | cons hd tl ih =>
    obtain ⟨data, t, opts⟩ := hd
    simp only [batchTransformImages, batchOutcomes, List.map_cons, List.length_cons]
    refine ⟨?_, ?_, ?_⟩
    · simp [(ih _ _).1]
    · rw [(ih _ _).2.1]
    · simp [(ih _ _).2.2]

/-- C9 counterexample: `getState()` is a shallow copy, so its
`transformHistory` field aliases the internal array: pushing a result
through the reference obtained from the returned state object changes
the orchestrator's internal history ([resA] becomes [resA, resB]),
contradicting the claim that mutating the returned object leaves the
internal `TransformState` unchanged. -/
theorem C9_counterexample :
    internalHistory (pushAt demoMgr (getState demoMgr).transformHistoryRef resB) =
      [resA, resB] ∧
    internalHistory demoMgr = [resA] ∧
    ([resA, resB] ≠ [resA]) := by
  decide

/-- C9 amended: `getTransformHistory()` returns a fresh array — pushing
into it leaves the internal history unchanged — but `getState()` copies
only the top-level fields: its `transformHistory` field is the very
internal array reference, so mutating through it mutates the
orchestrator's state (see the counterexample). -/
theorem C9_snapshots (m : MgrObj) (x : TransformResult)
    (hwf : m.state.transformHistoryRef < m.heap.nextRef) :
    internalHistory (pushAt (getTransformHistory m).1 (getTransformHistory m).2 x) =
      internalHistory m ∧
    (getState m).transformHistoryRef = m.state.transformHistoryRef := by
  refine ⟨?_, rfl⟩
  unfold internalHistory pushAt getTransformHistory
  have hne : m.state.transformHistoryRef ≠ m.heap.nextRef := by omega
  simp [hne]

/-- Witness for the C9 amended theorem on the fixture manager. -/
theorem C9_snapshots_witness :
    demoMgr.state.transformHistoryRef < demoMgr.heap.nextRef ∧
    (internalHistory
        (pushAt (getTransformHistory demoMgr).1 (getTransformHistory demoMgr).2 resB) =
      internalHistory demoMgr ∧
    (getState demoMgr).transformHistoryRef = demoMgr.state.transformHistoryRef) :=
  ⟨by decide, C9_snapshots demoMgr resB (by decide)⟩

/-- A request key is never the empty string (it always contains the
joining underscore), so the `if (oldestKey)` truthiness guard of
`cacheResult` never skips an eviction for a key the service itself
derived. -/
theorem generateRequestKey_ne_empty (img t : String) (opts : TransformOptions) :
    generateRequestKey img t opts ≠ "" := by
  unfold generateRequestKey
  intro h
  have hd := congrArg String.data h
  have hu : ("_" : String).data = ['_'] := rfl
  simp only [String.data_append, hu] at hd
  simp at hd

/-- Setting a key grows the map by at most one slot. -/
theorem mapSet_length_le (m : CacheMap) (k : String) (v : CacheEntry) :
    (mapSet m k v).length ≤ m.length + 1 := by
  induction m with
  | nil => simp [mapSet]
  | cons hd tl ih =>
    obtain ⟨k0, v0⟩ := hd
    by_cases h : k0 = k
    · simp only [mapSet, if_pos h, List.length_cons]
      have h2 := List.length_cons (k0, v0) tl
      omega
    · simp only [mapSet, if_neg h, List.length_cons]
      have h2 := List.length_cons (k0, v0) tl
      omega

/-- Every entry of `mapSet m k v` is an old entry or the new binding. -/
theorem mapSet_mem (m : CacheMap) (k : String) (v : CacheEntry) :
    ∀ p ∈ mapSet m k v, p ∈ m ∨ p = (k, v) := by
  induction m with
  | nil => simp [mapSet]
  | cons hd tl ih =>
    obtain ⟨k0, v0⟩ := hd
    intro p hp
    by_cases h : k0 = k
    · simp only [mapSet, if_pos h] at hp
      rcases List.mem_cons.mp hp with h1 | h1
      · right; rw [h1, h]
      · left; exact List.mem_cons_of_mem _ h1
    · simp only [mapSet, if_neg h] at hp
      rcases List.mem_cons.mp hp with h1 | h1
      · left; exact h1 ▸ List.mem_cons_self _ _
      · rcases ih p h1 with h2 | h2
        · left; exact List.mem_cons_of_mem _ h2
        · right; exact h2

/-- Deletion only removes entries. -/
theorem mapDelete_subset (m : CacheMap) (k : String) :
    ∀ p ∈ mapDelete m k, p ∈ m := by
  induction m with
  | nil => simp [mapDelete]
  | cons hd tl ih =>
    obtain ⟨k0, v0⟩ := hd
    intro p hp
    by_cases h : k0 = k
    · simp only [mapDelete, if_pos h] at hp
      exact List.mem_cons_of_mem _ hp
    · simp only [mapDelete, if_neg h] at hp
      rcases List.mem_cons.mp hp with h1 | h1
      · exact h1 ▸ List.mem_cons_self _ _
      · exact List.mem_cons_of_mem _ (ih p h1)

/-- Deletion never grows the map. -/
theorem mapDelete_length_le (m : CacheMap) (k : String) :
    (mapDelete m k).length ≤ m.length := by
  induction m with
  | nil => simp [mapDelete]
  | cons hd tl ih =>
    obtain ⟨k0, v0⟩ := hd
    by_cases h : k0 = k
    · simp only [mapDelete, if_pos h]
      have h2 := List.length_cons (k0, v0) tl
      omega
    · simp only [mapDelete, if_neg h, List.length_cons]
      have h2 := List.length_cons (k0, v0) tl
      omega

/-- Deleting the key at the head drops exactly the head. -/
theorem mapDelete_cons_self (k0 : String) (v0 : CacheEntry) (rest : CacheMap) :
    mapDelete ((k0, v0) :: rest) k0 = rest := by
  simp [mapDelete]

/-- A lookup either leaves the cache untouched or removes the looked-up
(expired) key. -/
theorem getCachedResult_snd_cases (now : Nat) (m : CacheMap) (img ttype : String)
    (opts : TransformOptions) :
    (getCachedResult now m img ttype opts).2 = m ∨
    (getCachedResult now m img ttype opts).2 =
      mapDelete m (generateRequestKey img ttype opts) := by
  unfold getCachedResult
  cases hl : mapLookup m (generateRequestKey img ttype opts) with
  | none => left; simp [hl]
  | some e =>
    by_cases h : now > e.expiresAt
    · right; simp [hl, h]
    · left; simp [hl, h]

/-- `cacheResult` keeps the map within a positive capacity, provided no
stored key is the empty string (true of every key the service derives). -/
theorem cacheResult_length_le (maxCS now : Nat) (m : CacheMap) (k r : String)
    (hcap : 1 ≤ maxCS) (hlen : m.length ≤ maxCS)
    (hkeys : ∀ p ∈ m, p.1 ≠ "") :
    (cacheResult maxCS now m k r).length ≤ maxCS := by
  unfold cacheResult
  by_cases hge : m.length ≥ maxCS
  · have hl : m.length = maxCS := le_antisymm hlen hge
    cases m with
    | nil => simp at hl; omega
    | cons hd tl =>
      obtain ⟨k0, v0⟩ := hd
      have hk0 : k0 ≠ "" := hkeys (k0, v0) (List.mem_cons_self _ _)
      simp only [if_pos hge, if_neg hk0, mapDelete_cons_self]
      have := mapSet_length_le tl k
        { key := k, result := r, timestamp := now, expiresAt := now + cacheTTL }
      simp only [List.length_cons] at hl
      omega
  · simp only [if_neg hge]
    have := mapSet_length_le m k
      { key := k, result := r, timestamp := now, expiresAt := now + cacheTTL }
    omega

/-- Every entry after `cacheResult` is an old entry or the freshly
created one. -/
theorem cacheResult_mem (maxCS now : Nat) (m : CacheMap) (k r : String) :
    ∀ p ∈ cacheResult maxCS now m k r,
      p ∈ m ∨ p = (k, { key := k, result := r, timestamp := now
                        expiresAt := now + cacheTTL }) := by
  unfold cacheResult
  intro p hp
  by_cases hge : m.length ≥ maxCS
  · simp only [if_pos hge] at hp
    cases m with
    | nil =>
      rcases mapSet_mem _ _ _ p hp with h1 | h1
      · simp at h1
      · right; exact h1
    | cons hd tl =>
      obtain ⟨k0, v0⟩ := hd
      by_cases hk0 : k0 = ""
      · simp only [if_pos hk0] at hp
        rcases mapSet_mem _ _ _ p hp with h1 | h1
        · left; exact h1
        · right; exact h1
      · simp only [if_neg hk0] at hp
        rcases mapSet_mem _ _ _ p hp with h1 | h1
        · left; exact mapDelete_subset _ _ p h1
        · right; exact h1
  · simp only [if_neg hge] at hp
    rcases mapSet_mem _ _ _ p hp with h1 | h1
    · left; exact h1
    · right; exact h1

/-- Preservation of the capacity/expiry/nonempty-key invariant along a
sequence of cache operations. -/
theorem foldl_cache_inv (maxCS : Nat) (hcap : 1 ≤ maxCS) :
    ∀ (ops : List CacheOp) (m : CacheMap),
      m.length ≤ maxCS → (∀ p ∈ m, p.1 ≠ "" ∧ p.2.timestamp < p.2.expiresAt) →
      (ops.foldl (applyCacheOp maxCS) m).length ≤ maxCS ∧
      (∀ p ∈ ops.foldl (applyCacheOp maxCS) m,
        p.1 ≠ "" ∧ p.2.timestamp < p.2.expiresAt) := by
  intro ops
  induction ops with
  | nil => intro m h1 h2; exact ⟨h1, h2⟩
  | cons op rest ih =>
    intro m h1 h2
    simp only [List.foldl_cons]
    apply ih
    · cases op with
      | put img ttype opts result now =>
        exact cacheResult_length_le maxCS now m _ result hcap h1 fun p hp => (h2 p hp).1
      | lookup img ttype opts now =>
        rcases getCachedResult_snd_cases now m img ttype opts with h | h <;>
          simp only [applyCacheOp, h]
        · exact h1
        · exact le_trans (mapDelete_length_le _ _) h1
      | clear => simp [applyCacheOp]
    · cases op with
      | put img ttype opts result now =>
        intro p hp
        rcases cacheResult_mem maxCS now m _ result p hp with h | h
        · exact h2 p h
        · rw [h]
          refine ⟨generateRequestKey_ne_empty img ttype opts, ?_⟩
          show now < now + cacheTTL
          unfold cacheTTL
          omega
      | lookup img ttype opts now =>
        intro p hp
        rcases getCachedResult_snd_cases now m img ttype opts with h | h <;>
          rw [applyCacheOp] at hp <;> rw [h] at hp
        · exact h2 p hp
        · exact h2 p (mapDelete_subset _ _ p hp)
      | clear => simp [applyCacheOp]

/-- C6 counterexample: with configured capacity 0 (a legal
`maxCacheSize` option), one `put` leaves the cache holding 1 entry —
the eviction is skipped because the empty map has no oldest key — so
the cache exceeds its configured capacity, contradicting the claim for
every sequence of operations and every configured capacity. -/
theorem C6_counterexample :
    (runCacheOps 0 [CacheOp.put "i" "light" [] "r" 0]).length = 1 ∧ ¬(1 ≤ 0) := by
  decide

/-- C6 amended: for every configured capacity ≥ 1 the cache invariant
holds: after any sequence of operations the cache holds at most
`maxCacheSize` entries and every stored entry satisfies
`expiresAt > createdAt`; and a `put` on a cache at capacity evicts
exactly the single oldest-inserted (head) entry before inserting
(insertion order, independent of any accesses). With capacity 0 the
bound fails (see the counterexample). -/
theorem C6_cache_invariant (maxCS : Nat) (ops : List CacheOp) (hcap : 1 ≤ maxCS) :
    ((runCacheOps maxCS ops).length ≤ maxCS ∧
      ∀ p ∈ runCacheOps maxCS ops, p.2.timestamp < p.2.expiresAt) ∧
    (∀ (now : Nat) (k0 : String) (v0 : CacheEntry) (rest : CacheMap) (k res : String),
      ((k0, v0) :: rest).length = maxCS → k0 ≠ "" →
      cacheResult maxCS now ((k0, v0) :: rest) k res =
        mapSet rest k { key := k, result := res, timestamp := now
                        expiresAt := now + cacheTTL }) := by
  constructor
  · have h := foldl_cache_inv maxCS hcap ops [] (by simp) (by simp)
    exact ⟨h.1, fun p hp => (h.2 p hp).2⟩
  · intro now k0 v0 rest k res hlen hk0
    unfold cacheResult
    have hge : ((k0, v0) :: rest).length ≥ maxCS := le_of_eq hlen.symm
    simp only [if_pos hge, if_neg hk0, mapDelete_cons_self]

/-- Witness for the C6 amended theorem: capacity 1, one `put`; and the
eviction equation on a one-entry cache at capacity 1. -/
theorem C6_cache_invariant_witness :
    1 ≤ 1 ∧
    (((runCacheOps 1 [CacheOp.put "i" "light" [] "r" 0]).length ≤ 1 ∧
      ∀ p ∈ runCacheOps 1 [CacheOp.put "i" "light" [] "r" 0],
        p.2.timestamp < p.2.expiresAt) ∧
    (∀ (now : Nat) (k0 : String) (v0 : CacheEntry) (rest : CacheMap) (k res : String),
      ((k0, v0) :: rest).length = 1 → k0 ≠ "" →
      cacheResult 1 now ((k0, v0) :: rest) k res =
        mapSet rest k { key := k, result := res, timestamp := now
                        expiresAt := now + cacheTTL })) :=
  ⟨by decide, C6_cache_invariant 1 [CacheOp.put "i" "light" [] "r" 0] (by decide)⟩

/-- A key that occurs nowhere in the map is not found. -/
theorem mapLookup_eq_none_of_not_mem (m : CacheMap) (k : String)
    (h : k ∉ m.map Prod.fst) : mapLookup m k = none := by
  induction m with
  | nil => rfl
  | cons hd tl ih =>
    obtain ⟨k0, v0⟩ := hd
    simp only [List.map_cons, List.mem_cons, not_or] at h
    have hb : (k0 == k) = false := beq_eq_false_iff_ne.mpr fun e => h.1 e.symm
    simp only [mapLookup, List.find?_cons, hb, cond_false]
    exact ih h.2

/-- Deleting a key from a duplicate-free map makes its lookup miss. -/
theorem mapLookup_mapDelete_self (m : CacheMap) (k : String)
    (hnd : (m.map Prod.fst).Nodup) : mapLookup (mapDelete m k) k = none := by
  induction m with
  | nil => rfl
  | cons hd tl ih =>
    obtain ⟨k0, v0⟩ := hd
    simp only [List.map_cons, List.nodup_cons] at hnd
    by_cases h : k0 = k
    · simp only [mapDelete, if_pos h]
      exact mapLookup_eq_none_of_not_mem tl k (h ▸ hnd.1)
    · have hb : (k0 == k) = false := beq_eq_false_iff_ne.mpr h
      simp only [mapDelete, if_neg h, mapLookup, List.find?_cons, hb, cond_false]
      exact ih hnd.2

/-- After a miss, the (possibly expiry-pruned) cache still has no entry
for the looked-up key, provided keys were duplicate-free. -/
theorem getCachedResult_miss_lookup (now : Nat) (m : CacheMap) (img ttype : String)
    (opts : TransformOptions) (hnd : (m.map Prod.fst).Nodup)
    (hmiss : (getCachedResult now m img ttype opts).1 = none) :
    mapLookup ((getCachedResult now m img ttype opts).2)
      (generateRequestKey img ttype opts) = none := by
  unfold getCachedResult at hmiss ⊢
  cases hl : mapLookup m (generateRequestKey img ttype opts) with
  | none => simp [hl]
  | some e =>
    by_cases h : now > e.expiresAt
    · simp only [hl, h, if_pos]
      exact mapLookup_mapDelete_self m _ hnd
    · simp [hl, h] at hmiss

/-- Finding a key appended to a registry that lacked it. -/
theorem find?_key_append (active : List (String × Nat)) (key : String) (p : Nat)
    (h : active.find? (fun q => q.1 == key) = none) :
    (active ++ [(key, p)]).find? (fun q => q.1 == key) = some (key, p) := by
  simp [List.find?_append, h, List.find?_cons]

/-- Inversion of the synchronous head of `APIService.transformImage`
when it starts fresh work: the key was configured, the cache (when
consulted) now has no entry for this request's key, and the registry
holds this key's pending promise. -/
theorem transformImageStart_started_inv (ec : Bool) (apiKey : String) (now : Nat)
    (st st' : SvcState) (img : String) (t : TType) (opts : TransformOptions) (p : Nat)
    (hnd : (st.cache.map Prod.fst).Nodup)
    (h : transformImageStart ec apiKey now st img t opts = (st', .started p)) :
    (apiKey == "") = false ∧
    (∀ n2, (if ec then getCachedResult n2 st'.cache img (ttypeStr t) opts
        else (none, st'.cache)) = (none, st'.cache)) ∧
    st'.active.find? (fun q => q.1 == generateRequestKey img (ttypeStr t) opts) =
      some (generateRequestKey img (ttypeStr t) opts, p) := by
  unfold transformImageStart at h
  by_cases hkey : (apiKey == "") = true
  · rw [if_pos hkey] at h
    simp [Prod.ext_iff] at h
  · rw [if_neg hkey] at h
    refine ⟨by simpa using hkey, ?_⟩
    by_cases hec : ec
    · simp only [hec, if_true] at h ⊢
      rcases hgc : getCachedResult now st.cache img (ttypeStr t) opts with ⟨o, cache1⟩
      rw [hgc] at h
      cases o with
      | some r => simp [Prod.ext_iff] at h
      | none =>
        cases hfind : (st.active.find?
            (fun q => q.1 == generateRequestKey img (ttypeStr t) opts)) with
        | some q =>
          rw [hfind] at h
          simp [Prod.ext_iff] at h
        | none =>
          rw [hfind] at h
          simp only [Option.map_none', Option.map_some', Prod.mk.injEq,
            CallStart.started.injEq] at h
          obtain ⟨rfl, rfl⟩ := h
          have hmiss : (getCachedResult now st.cache img (ttypeStr t) opts).1 = none := by
            rw [hgc]
          have hc1 : mapLookup cache1 (generateRequestKey img (ttypeStr t) opts) = none := by
            have hm := getCachedResult_miss_lookup now st.cache img (ttypeStr t) opts hnd hmiss
            rw [hgc] at hm
            exact hm
          constructor
          · intro n2
            unfold getCachedResult
            simp [hc1]
          · exact find?_key_append st.active _ st.nextPromiseId hfind
    · have hecf : ec = false := by simpa using hec
      simp only [hecf, if_false] at h ⊢
      cases hfind : (st.active.find?
          (fun q => q.1 == generateRequestKey img (ttypeStr t) opts)) with
      | some q =>
        rw [hfind] at h
        simp [Prod.ext_iff] at h
      | none =>
        rw [hfind] at h
        simp only [Option.map_none', Option.map_some', Prod.mk.injEq,
          CallStart.started.injEq] at h
        obtain ⟨rfl, rfl⟩ := h
        refine ⟨fun _ => rfl, ?_⟩
        exact find?_key_append st.active _ st.nextPromiseId hfind


/-- C2: the single-flight guarantee. If a `transformImage` call
registered fresh work for its RequestKey (outcome `started p`) and a
second call with the identical (image, transform type, options) tuple
arrives while that work is still pending, the second call attaches to
the same pending promise `p` (outcome `joined p`) and starts no new
execution: only the request-id counter changes, and in particular the
execution counter is untouched, so exactly one underlying attempt chain
exists and both callers await the same settled outcome. (The check
sequence of lines 97–114 of `APIService.ts` contains no `await`, so in
the JS event-loop model it is atomic, which this step-level theorem
reflects.) -/
theorem C2_single_flight (ec : Bool) (apiKey : String) (now now2 : Nat)
    (st st' : SvcState) (img : String) (t : TType) (opts : TransformOptions) (p : Nat)
    (hnd : (st.cache.map Prod.fst).Nodup)
    (h : transformImageStart ec apiKey now st img t opts = (st', .started p)) :
    transformImageStart ec apiKey now2 st' img t opts =
      ({ st' with requestIdCounter := st'.requestIdCounter + 1 }, .joined p) ∧
    ({ st' with requestIdCounter := st'.requestIdCounter + 1 }).executions =
      st'.executions := by
  obtain ⟨hkey, hcache, hfind⟩ :=
    transformImageStart_started_inv ec apiKey now st st' img t opts p hnd h
  refine ⟨?_, rfl⟩
  unfold transformImageStart
  rw [if_neg (by simp [hkey])]
  dsimp only
  rw [hcache now2, hfind]
  rfl

/-- Witness for C2 on a fresh service: the first call starts promise 0;
the second call (at a later time) joins promise 0 without a new
execution. -/
theorem C2_single_flight_witness :
    (transformImageStart true "test-api-key" 0 emptySvc "i" TType.light [] =
      (startDemo.1, CallStart.started 0)) ∧
    (transformImageStart true "test-api-key" 5 startDemo.1 "i" TType.light [] =
      ({ startDemo.1 with requestIdCounter := startDemo.1.requestIdCounter + 1 },
        CallStart.joined 0) ∧
    ({ startDemo.1 with requestIdCounter := startDemo.1.requestIdCounter + 1 }).executions =
      startDemo.1.executions) :=
  ⟨by decide,
    C2_single_flight true "test-api-key" 0 5 emptySvc startDemo.1 "i" TType.light [] 0
      (by decide) (by decide)⟩

/-- One non-reentrant `ImageTransformManager.transformImage` call
always settles to a result and appends exactly that result at the end
of the history (both the success and the failure path push once). -/
theorem mgrTransformImage_records (cfg : JimengConfig) (ec er : Bool)
    (mcs mta : Nat) (net : NetOracle) (now elapsed : Nat) (st : SvcState)
    (h : List TransformResult) (img : String) (t : TType) :
    ∃ run, mgrTransformImage cfg ec er mcs mta net now elapsed false st h img t = .ok run ∧
      run.history = h ++ [run.result] := by
  unfold mgrTransformImage
  simp only [Bool.false_eq_true, if_false]
  cases hm : (mgrAttempts cfg ec er mcs net now mta img t mta 1 st 0).2.1 with
  | ok r =>
    simp only [hm]
    exact ⟨_, rfl, rfl⟩
  | error e =>
    simp only [hm]
    exact ⟨_, rfl, rfl⟩

/-- C3 counterexample: three completed transforms leave
`getTransformHistory()` with exactly 3 entries — there is no configured
cap and nothing is ever dropped, so with any purported cap of 2 (and
N = 3 > 2) the claimed length `cap` is wrong. -/
theorem C3_counterexample :
    (runTransforms mockConfig true true 50 3 0 7 threeTransforms emptySvc []).2.length = 3 ∧
    ¬((3 : Nat) = 2) := by
  decide

/-- C3 amended: the history is unbounded and append-only. After any
sequence of N completed transforms (successful or failed) starting from
a history of length L, the history has length exactly L + N, and the
first L entries are the old history unchanged — results are retained in
chronological order and none are dropped; `getTransformHistory()`
returns this full list. -/
theorem C3_history_unbounded (cfg : JimengConfig) (ec er : Bool)
    (mcs mta now elapsed : Nat) (items : List (String × TType × NetOracle))
    (st : SvcState) (h : List TransformResult) :
    (runTransforms cfg ec er mcs mta now elapsed items st h).2.length =
      h.length + items.length ∧
    (runTransforms cfg ec er mcs mta now elapsed items st h).2.take h.length = h := by
  induction items generalizing st h with
  | nil => simp [runTransforms]
  | cons hd tl ih =>
    obtain ⟨img, t, net⟩ := hd
    obtain ⟨run, hrun, happ⟩ :=
      mgrTransformImage_records cfg ec er mcs mta net now elapsed st h img t
    simp only [runTransforms, hrun]
    obtain ⟨ihl, iht⟩ := ih run.svc run.history
    have hle : h.length ≤ run.history.length := by
      rw [happ]
      simp
    constructor
    · rw [ihl, happ]
      simp only [List.length_append, List.length_cons, List.length_nil]
      omega
    · calc (runTransforms cfg ec er mcs mta now elapsed tl run.svc run.history).2.take
            h.length
          = ((runTransforms cfg ec er mcs mta now elapsed tl run.svc
              run.history).2.take run.history.length).take h.length := by
            rw [List.take_take, min_eq_left hle]
        _ = run.history.take h.length := by rw [iht]
        _ = h := by
            rw [happ, List.take_append_of_le_length (le_refl h.length)]
            simp

/-- Under a remote that fails every exchange with one retryable error,
the service retry loop consumes exactly its remaining attempt budget
and settles on that error. -/
theorem performAttempts_const_error (net : NetOracle) (e : Thrown) (maxRetries : Nat)
    (hnet : ∀ i, net i = .error e) (hre : isRetryableError e = true) :
    ∀ f attempt idx, attempt + f = maxRetries + 1 → 1 ≤ f →
      (performAttempts net maxRetries f attempt idx).outcome = .error e ∧
      (performAttempts net maxRetries f attempt idx).attempts = f := by
  intro f
  induction f with
  | zero => intro attempt idx hsum hf; omega
  | succ f ih =>
    intro attempt idx hsum _
    have hstep : attemptOnce net idx = .error e := by
      unfold attemptOnce
      rw [hnet]
    by_cases hlast : f = 0
    · subst hlast
      have hat : attempt = maxRetries := by omega
      unfold performAttempts
      rw [hstep]
      simp [hat]
    · have hat : ¬(attempt = maxRetries) := by omega
      obtain ⟨ho, ha⟩ := ih (attempt + 1) (idx + 1) (by omega) (by omega)
      unfold performAttempts
      rw [hstep]
      simp [hat, hre, ho, ha]

/-- `performTransformation` with retries enabled against an
always-failing (retryable) remote: every one of `retryCount` exchanges
is attempted, and the loop rethrows the classified error. -/
theorem performTransformation_const_error (cfg : JimengConfig) (net : NetOracle)
    (e : Thrown) (idx : Nat) (hnet : ∀ i, net i = .error e)
    (hre : isRetryableError e = true) (hR : 1 ≤ cfg.retryCount) :
    (performTransformation cfg true net idx).outcome = .error e ∧
    (performTransformation cfg true net idx).attempts = cfg.retryCount := by
  unfold performTransformation
  exact performAttempts_const_error net e cfg.retryCount hnet hre cfg.retryCount 1 idx
    (by omega) hR

/-- The synchronous head of `APIService.transformImage` on a state
whose cache and registry have no entry for the request's key: it
registers fresh work. -/
theorem transformImageStart_miss (apiKey : String) (now : Nat) (st : SvcState)
    (img : String) (t : TType) (opts : TransformOptions)
    (hk : (apiKey == "") = false)
    (hc : mapLookup st.cache (generateRequestKey img (ttypeStr t) opts) = none)
    (ha : st.active.find? (fun q => q.1 == generateRequestKey img (ttypeStr t) opts) =
      none) :
    transformImageStart true apiKey now st img t opts =
      ({ cache := st.cache
         active := st.active ++
           [(generateRequestKey img (ttypeStr t) opts, st.nextPromiseId)]
         requestIdCounter := st.requestIdCounter + 1
         nextPromiseId := st.nextPromiseId + 1
         executions := st.executions + 1 }, .started st.nextPromiseId) := by
  unfold transformImageStart getCachedResult
  simp [hk, hc, ha]

/-- A full sequential `APIService.transformImage` call against an
always-failing retryable remote: the in-flight entry is added and then
removed, the cache is untouched, all `retryCount` exchanges happen, and
the classified error is replaced by the catch block's
`UNKNOWN_ERROR` rewrap. -/
theorem transformImageSeq_const_error (cfg : JimengConfig) (mcs : Nat) (net : NetOracle)
    (now : Nat) (st : SvcState) (img : String) (t : TType) (opts : TransformOptions)
    (idx : Nat) (e : Thrown)
    (hk : (cfg.apiKey == "") = false)
    (hnet : ∀ i, net i = .error e) (hre : isRetryableError e = true)
    (hR : 1 ≤ cfg.retryCount)
    (hc : mapLookup st.cache (generateRequestKey img (ttypeStr t) opts) = none)
    (ha : st.active.find? (fun q => q.1 == generateRequestKey img (ttypeStr t) opts) =
      none) :
    transformImageSeq cfg true true mcs net now st img t opts idx =
      ({ st with requestIdCounter := st.requestIdCounter + 1
                 nextPromiseId := st.nextPromiseId + 1
                 executions := st.executions + 1 },
        { performTransformation cfg true net idx with
            outcome := .error (svcRewrap e) }) := by
  unfold transformImageSeq
  rw [transformImageStart_miss cfg.apiKey now st img t opts hk hc ha]
  obtain ⟨ho, _⟩ := performTransformation_const_error cfg net e idx hnet hre hR
  have hfilter : ∀ n : Nat,
      (st.active ++ [(generateRequestKey img (ttypeStr t) opts, n)]).filter
        (fun p => !(p.1 == generateRequestKey img (ttypeStr t) opts)) = st.active := by
    intro n
    rw [List.filter_append]
    have h1 : st.active.filter
        (fun p => !(p.1 == generateRequestKey img (ttypeStr t) opts)) = st.active := by
      apply List.filter_eq_self.mpr
      intro a hmem
      have hne := List.find?_eq_none.mp ha a hmem
      simpa using hne
    rw [h1]
    simp
  dsimp only
  rw [ho]
  dsimp only
  rw [hfilter]

/-- The orchestrator's retry loop over an always-failing retryable
remote: each of its iterations performs a full `retryCount`-attempt
service call, so the loop multiplies the budgets; the surfaced error is
the service's rewrapped one. -/
theorem mgrAttempts_const_error (cfg : JimengConfig) (mcs : Nat) (net : NetOracle)
    (now : Nat) (M : Nat) (img : String) (t : TType) (e : Thrown)
    (hk : (cfg.apiKey == "") = false)
    (hnet : ∀ i, net i = .error e) (hre : isRetryableError e = true)
    (hR : 1 ≤ cfg.retryCount) :
    ∀ f attempt st idx, attempt + f = M + 1 → 1 ≤ f →
      mapLookup st.cache (generateRequestKey img (ttypeStr t) (mgrOptions t)) = none →
      st.active.find?
        (fun q => q.1 == generateRequestKey img (ttypeStr t) (mgrOptions t)) = none →
      (mgrAttempts cfg true true mcs net now M img t f attempt st idx).2.1 =
        .error (.svcErr (svcRewrap e)) ∧
      (mgrAttempts cfg true true mcs net now M img t f attempt st idx).2.2.1 =
        f * cfg.retryCount := by
  intro f
  induction f with
  | zero => intro attempt st idx hsum hf _ _; omega
  | succ f ih =>
    intro attempt st idx hsum _ hc ha
    have hseq := transformImageSeq_const_error cfg mcs net now st img t (mgrOptions t)
      idx e hk hnet hre hR hc ha
    obtain ⟨_, hpatt⟩ := performTransformation_const_error cfg net e idx hnet hre hR
    unfold mgrAttempts
    rw [hseq]
    dsimp only
    by_cases hlast : f = 0
    · subst hlast
      have hge : ¬(attempt < M) := by omega
      rw [if_neg hge]
      exact ⟨rfl, by simpa using hpatt⟩
    · have hlt : attempt < M := by omega
      rw [if_pos hlt]
      obtain ⟨ho2, hatt2⟩ := ih (attempt + 1)
        { st with requestIdCounter := st.requestIdCounter + 1
                  nextPromiseId := st.nextPromiseId + 1
                  executions := st.executions + 1 }
        (idx + (performTransformation cfg true net idx).attempts)
        (by omega) (by omega) hc ha
      refine ⟨ho2, ?_⟩
      dsimp only
      rw [hatt2, hpatt, Nat.succ_mul]
      omega

/-- C1 counterexample: with the test-fixture configuration —
orchestrator `maxTransformAttempts` 3 and service `retryCount` 3 — and
a remote failing every exchange with a classified `SERVER_ERROR`, one
orchestrator `transformImage` call performs 9 network attempts (the two
retry loops are nested, 3 × 3), not the claimed 3, and the recorded
failure's error kind is `API_ERROR` (the classified error is rewrapped
`SERVER_ERROR → UNKNOWN_ERROR → API_ERROR` by the two catch blocks),
not `SERVER_ERROR`. -/
theorem C1_counterexample :
    retryBoundRun.map (fun r => (r.networkAttempts, r.result.error.map GameError.type)) =
      .ok (9, some "API_ERROR") ∧
    (9 : Nat) ≠ 3 ∧ "API_ERROR" ≠ "SERVER_ERROR" := by
  decide

/-- C1 amended: for every configuration with a nonempty API key,
orchestrator attempt budget M ≥ 1 and service retry budget
`retryCount` ≥ 1, if every network exchange fails with a classified
`SERVER_ERROR` then one orchestrator `transformImage` call performs
exactly `M * retryCount` network attempts and terminates with a failure
result, recorded once in history, whose error kind is `API_ERROR`: the
service catch block rewraps the classified error (a plain object, not
an `Error` instance) as `UNKNOWN_ERROR`, and the orchestrator catch
block rewraps again as `API_ERROR`. -/
theorem C1_retry_and_error_kind (cfg : JimengConfig) (mcs M : Nat) (net : NetOracle)
    (now elapsed : Nat) (st : SvcState) (h : List TransformResult) (img : String)
    (t : TType) (msg : String)
    (hk : (cfg.apiKey == "") = false)
    (hnet : ∀ i, net i = .error (.apiErr .SERVER_ERROR msg))
    (hR : 1 ≤ cfg.retryCount) (hM : 1 ≤ M)
    (hc : mapLookup st.cache (generateRequestKey img (ttypeStr t) (mgrOptions t)) = none)
    (ha : st.active.find?
      (fun q => q.1 == generateRequestKey img (ttypeStr t) (mgrOptions t)) = none) :
    (mgrTransformImage cfg true true mcs M net now elapsed false st h img t).map
        (fun r => (r.networkAttempts, r.result.success, r.result.error, r.raised,
          r.history)) =
      .ok (M * cfg.retryCount, false, some ⟨"API_ERROR", "Transform failed"⟩,
        some ⟨"API_ERROR", "Transform failed"⟩,
        h ++ [{ success := false, transformedImage := none, originalImage := img
                transformType := t, processingTime := elapsed
                error := some ⟨"API_ERROR", "Transform failed"⟩ }]) := by
  have hre : isRetryableError (.apiErr .SERVER_ERROR msg) = true := rfl
  obtain ⟨ho, hatt⟩ := mgrAttempts_const_error cfg mcs net now M img t _ hk hnet hre hR
    M 1 st 0 (by omega) hM hc ha
  unfold mgrTransformImage
  simp only [Bool.false_eq_true, if_false, ho, hatt]
  rfl

/-- Witness for the C1 amended theorem at the test-fixture
configuration (M = 3, retryCount = 3, always-HTTP-500 remote). -/
theorem C1_retry_and_error_kind_witness :
    (mockConfig.apiKey == "") = false ∧ 1 ≤ mockConfig.retryCount ∧ 1 ≤ 3 ∧
    ((mgrTransformImage mockConfig true true 50 3 serverNet 0 7 false emptySvc [] "img"
        TType.light).map
        (fun r => (r.networkAttempts, r.result.success, r.result.error, r.raised,
          r.history)) =
      .ok (3 * mockConfig.retryCount, false, some ⟨"API_ERROR", "Transform failed"⟩,
        some ⟨"API_ERROR", "Transform failed"⟩,
        [] ++ [{ success := false, transformedImage := none, originalImage := "img"
                 transformType := TType.light, processingTime := 7
                 error := some ⟨"API_ERROR", "Transform failed"⟩ }])) :=
  ⟨rfl, by decide, by decide,
    C1_retry_and_error_kind mockConfig 50 3 serverNet 0 7 emptySvc [] "img" TType.light
      "HTTP 500: Internal Server Error" rfl (fun _ => rfl) (by decide) (by decide)
      (by decide) (by decide)⟩

end FastKoF
